import Mathlib

/-!
Shallow embedding of the quantiphyse-fsl plugin (package `fslqp`).

The embedded code comes from two files:

* `fslqp/process.py`: `qpdata_to_fslimage` / `fslimage_to_qpdata`,
  `FslOutputProgress.write` / `flush`, the worker function `_run_fsl`,
  and `FslProcess.finished` / `FslProcess.timeout`.
* `fslqp/flirt.py`: the command-line building parts of
  `FlirtRegMethod.reg_3d` and `FlirtRegMethod.moco`.

External types (numpy arrays, `fsl.data.image.Image`, the host
application's `ImageVolumeManagement`) are modelled structurally: records
holding exactly the fields the embedded code reads or writes.  Python
dictionaries are modelled as insertion-ordered association lists, Python
floats as exact rationals, and `re.match` as an abstract boolean-valued
parameter.
-/

namespace FslQP

/-- Python scalar values appearing in option dictionaries. -/
inductive PyVal where
  | str (s : String)
  | int (n : Int)
  | bool (b : Bool)
deriving DecidableEq

/-- Python truthiness of an option value (`if value:`). -/
def PyVal.truthy : PyVal → Bool
  | .str s => s ≠ ""
  | .int n => n ≠ 0
  | .bool b => b

/-- Python `"%s"` formatting of an option value. -/
def PyVal.format : PyVal → String
  | .str s => s
  | .int n => toString n
  | .bool b => if b then "True" else "False"

/-- An option dictionary: insertion-ordered key/value pairs. -/
abbrev PyDict := List (String × PyVal)

/-- Python `d.pop(k)`: the first value stored for `k` (`none` models `KeyError`)
together with the dictionary with that entry removed. -/
def dictPop : PyDict → String → Option PyVal × PyDict
  | [], _ => (none, [])
  | (k', v) :: rest, k =>
    if k' = k then (some v, rest)
    else
      let r := dictPop rest k
      (r.1, (k', v) :: r.2)

/-- One iteration of the `for key in options.keys()` loop shared by
`FlirtRegMethod.reg_3d` and `FlirtRegMethod.moco`
(`fslqp/flirt.py`): `cmdline += "-%s %s " % (key, value)` when
the popped value is truthy, else `cmdline += "-%s " % key`. -/
def optionFragment (kv : String × PyVal) : String :=
  if kv.2.truthy then "-" ++ kv.1 ++ " " ++ kv.2.format ++ " "
  else "-" ++ kv.1 ++ " "

/-- Concatenation of the fragments of all options, in dictionary order. -/
def optionFragments : PyDict → String
  | [] => ""
  | kv :: rest => optionFragment kv ++ optionFragments rest

/-- The option loop of `reg_3d` / `moco`: iterate over a snapshot of the
keys, `pop` each key from the dictionary and append its fragment to the
accumulated command line.  Returns `none` on a `KeyError` (unreachable
while the dictionary's keys are distinct). -/
def optionsLoopAux : List String → PyDict → String → Option (PyDict × String)
  | [], d, acc => some (d, acc)
  | k :: ks, d, acc =>
    match dictPop d k with
    | (some v, d') => optionsLoopAux ks d' (acc ++ optionFragment (k, v))
    | (none, _) => none

/-- The option loop run from `cmdline = ""` over the dictionary's own keys. -/
def optionsLoop (d : PyDict) : Option (PyDict × String) :=
  optionsLoopAux (d.map Prod.fst) d ""

theorem dictPop_head (k : String) (v : PyVal) (rest : PyDict) :
    dictPop ((k, v) :: rest) k = (some v, rest) := by
  simp [dictPop]

/-- With distinct keys, the option loop empties the dictionary and appends
each option's fragment in order. -/
theorem optionsLoopAux_nodup (d : PyDict) (acc : String)
    (h : (d.map Prod.fst).Nodup) :
    optionsLoopAux (d.map Prod.fst) d acc = some ([], acc ++ optionFragments d) := by
  induction d generalizing acc with
  | nil => simp [optionsLoopAux, optionFragments]
  | cons kv rest ih =>
    obtain ⟨k, v⟩ := kv
    simp only [List.map_cons, List.nodup_cons] at h
    have hstep : optionsLoopAux (k :: rest.map Prod.fst) ((k, v) :: rest) acc
        = optionsLoopAux (rest.map Prod.fst) rest (acc ++ optionFragment (k, v)) := by
      simp [optionsLoopAux, dictPop_head]
    rw [List.map_cons, hstep, ih _ h.2, optionFragments, String.append_assoc]

/-- A numpy array, reduced to the field the embedded code inspects:
its shape (`ndim` is the length of the shape). -/
structure NDArray where
  shape : List Nat
deriving DecidableEq

/-- Numpy `array.ndim`. -/
def NDArray.ndim (a : NDArray) : Nat := a.shape.length

/-- One data set held by an `ImageVolumeManagement`, as created by
`ivm.add_data(data, name=..., grid=DataGrid(shape, affine))`.
The affine type `G` stays abstract (a 4x4 float matrix at runtime). -/
structure IVMEntry (G : Type) where
  name : String
  arr : NDArray
  gridShape : List Nat
  gridAffine : G
deriving DecidableEq

/-- Result of the pure prefix of `FlirtRegMethod.reg_3d`
(`fslqp/flirt.py`, lines 43-59): everything up to handing the
command line to the external `_run_cmd`. -/
structure Reg3dSetup (G : Type) where
  ivm : List (IVMEntry G)
  processData : List String
  cmdline : String
  optionsLeft : PyDict
deriving DecidableEq

/-- The pure prefix of `FlirtRegMethod.reg_3d`: add `reg` and `ref` to a
fresh volume management, build the command line from the options
dictionary, then append the fixed `-in reg -ref ref -out flirt_out`
arguments.  `none` models a `KeyError` in the option loop. -/
def reg_3d (regData : NDArray) (regGrid : G) (refData : NDArray) (refGrid : G)
    (options : PyDict) : Option (Reg3dSetup G) :=
  let ivm : List (IVMEntry G) :=
    [⟨"reg", regData, regData.shape, regGrid⟩,
     ⟨"ref", refData, refData.shape, refGrid⟩]
  match optionsLoop options with
  | none => none
  | some (optsLeft, cmdline0) =>
    some ⟨ivm, ["reg", "ref"], cmdline0 ++ "-in reg -ref ref -out flirt_out", optsLeft⟩

/-- The `ref` argument of `FlirtRegMethod.moco`: either a volume index
(`isinstance(ref, int)`) or a 3D reference array. -/
inductive MocoRef where
  | intRef (n : Int)
  | arrRef (a : NDArray)
deriving DecidableEq

/-- Result of the pure prefix of `FlirtRegMethod.moco`. -/
structure MocoSetup (G : Type) where
  ivm : List (IVMEntry G)
  processData : List String
  cmdline : String
  optionsLeft : PyDict
deriving DecidableEq

/-- Outcome of the pure prefix of `FlirtRegMethod.moco`
(`fslqp/flirt.py`, lines 102-128): a raised `QpException`, a
`KeyError` from the option loop, or the constructed setup.  The
`QpException` case carries the options dictionary as the caller still
sees it (the raise happens before the loop consumes anything). -/
inductive MocoOutcome (G : Type) where
  | qpError (msg : String) (optionsLeft : PyDict)
  | keyError
  | ok (r : MocoSetup G)
deriving DecidableEq

/-- The pure prefix of `FlirtRegMethod.moco`: reject non-4D data, add the
data to a fresh volume management on the first three shape dimensions,
build the command line from the options, append
`-in moco_data -out mcflirt_out`, then either ` -refvol %i` (integer
reference, nothing added) or add the reference array as `ref_data` and
append ` -reffile ref_data`. -/
def moco (mocoData : NDArray) (mocoGrid : G) (ref : MocoRef) (refGrid : G)
    (options : PyDict) : MocoOutcome G :=
  if mocoData.ndim ≠ 4 then
    .qpError "Cannot motion correct 3D data" options
  else
    let ivm : List (IVMEntry G) :=
      [⟨"moco_data", mocoData, mocoData.shape.take 3, mocoGrid⟩]
    match optionsLoop options with
    | none => .keyError
    | some (optsLeft, cmdline0) =>
      let cmdline1 := cmdline0 ++ "-in moco_data -out mcflirt_out"
      match ref with
      | .intRef n =>
        .ok ⟨ivm, ["moco_data"], cmdline1 ++ " -refvol " ++ toString n, optsLeft⟩
      | .arrRef a =>
        .ok ⟨ivm ++ [⟨"ref_data", a, a.shape, refGrid⟩], ["moco_data", "ref_data"],
             cmdline1 ++ " -reffile ref_data", optsLeft⟩

/-- A `DataGrid(shape, affine)` of the host application: a grid shape and
a grid-to-world affine (type `G`, abstract). -/
structure DataGrid (G : Type) where
  shape : List Nat
  affine : G
deriving DecidableEq

/-- A `QpData` / `NumpyData` object of the host application, reduced to
the fields the embedded code reads: the raw array (`.raw()`, values of
abstract type `A`), its shape, the data name and the grid. -/
structure QpData (A G : Type) where
  rawData : A
  shape : List Nat
  name : String
  grid : DataGrid G
deriving DecidableEq

/-- An `fsl.data.image.Image`, modelled structurally: constructing
`Image(data, name=name, xform=xform)` stores the array as `.data`, the
array's shape as `.shape`, the name as `.name` and the affine as
`.voxToWorldMat`. -/
structure Image (A G : Type) where
  data : A
  shape : List Nat
  name : String
  voxToWorldMat : G
deriving DecidableEq

/-- Function `qpdata_to_fslimage` (`fslqp/process.py`, lines 23-25):
`Image(qpd.raw(), name=qpd.name, xform=qpd.grid.affine)`. -/
def qpdata_to_fslimage (qpd : QpData A G) : Image A G :=
  ⟨qpd.rawData, qpd.shape, qpd.name, qpd.grid.affine⟩

/-- Function `fslimage_to_qpdata` (`fslqp/process.py`, lines 27-30):
`if not name: name = img.name` (a `None` or empty name falls back to the
image's name), then
`NumpyData(img.data, grid=DataGrid(img.shape[:3], img.voxToWorldMat), name=name)`. -/
def fslimage_to_qpdata (img : Image A G) (name : Option String) : QpData A G :=
  let n := match name with
    | some s => if s = "" then img.name else s
    | none => img.name
  ⟨img.data, img.shape, n, ⟨img.shape.take 3, img.voxToWorldMat⟩⟩

/-- Python `str.splitlines()` over a character list, accumulating the
current (reversed) line.  Line boundaries: `\r\n` and the single
characters recognised by Python (`\n`, `\r`, `\v`, `\f`, `\x1c`, `\x1d`,
`\x1e`, `\x85`, `U+2028`, `U+2029`); a trailing boundary adds no empty
final line. -/
def isLineBoundary (c : Char) : Bool :=
  c = '\n' || c = '\r' || c = '\x0b' || c = '\x0c' ||
  c.val = 0x1c || c.val = 0x1d || c.val = 0x1e || c.val = 0x85 ||
  c.val = 0x2028 || c.val = 0x2029

def splitlinesAux : List Char → List Char → List String
  | [], acc => if acc.isEmpty then [] else [String.mk acc.reverse]
  | '\r' :: '\n' :: rest, acc => String.mk acc.reverse :: splitlinesAux rest []
  | c :: rest, acc =>
    if isLineBoundary c then String.mk acc.reverse :: splitlinesAux rest []
    else splitlinesAux rest (c :: acc)

/-- Python `text.splitlines()`. -/
def pySplitlines (text : String) : List String :=
  splitlinesAux text.data []

/-- The queue an `FslOutputProgress` writes to: `put` appends a line. -/
structure LineQueue where
  items : List String
deriving DecidableEq

def LineQueue.put (q : LineQueue) (line : String) : LineQueue :=
  ⟨q.items ++ [line]⟩

namespace FslOutputProgress

/-- Method `FslOutputProgress.write` (`fslqp/process.py`, lines 40-44):
`lines = text.splitlines()`, then `self._queue.put(line)` for each line. -/
def write (q : LineQueue) (text : String) : LineQueue :=
  (pySplitlines text).foldl LineQueue.put q

/-- Method `FslOutputProgress.flush` (`fslqp/process.py`, lines 46-48): `pass`. -/
def flush (q : LineQueue) : LineQueue := q

end FslOutputProgress

/-- The `_LOAD` magic string of `fslqp/process.py` (line 21). -/
def LOAD_STR : String :=
  "Pickleable replacement for fsl.LOAD special value, hope nobody is daft enough to pass this string as a parameter value"

/-- A value of the `cmd_args` dictionary handed to `_run_fsl`: a `QpData`
object, or a plain string (the `_LOAD` magic string included). -/
inductive CmdArgVal (A G : Type) where
  | qpd (d : QpData A G)
  | strVal (s : String)
deriving DecidableEq

/-- A converted argument value, after the loop in `_run_fsl`
(`fslqp/process.py`, lines 64-69): `QpData` becomes `fsl.Image`, the
`_LOAD` string becomes `fsl.LOAD`, anything else is left alone. -/
inductive FslArgVal (A G : Type) where
  | image (img : Image A G)
  | load
  | strVal (s : String)
deriving DecidableEq

def convertArg : CmdArgVal A G → FslArgVal A G
  | .qpd d => .image (qpdata_to_fslimage d)
  | .strVal s => if s = LOAD_STR then .load else .strVal s

/-- A value of the dictionary returned by an FSL wrapper call: an
`fsl.Image`, or a value of any other type. -/
inductive FslOutput (A G : Type) where
  | image (img : Image A G)
  | other
deriving DecidableEq

/-- One iteration of the result-collection loop of `_run_fsl`:
`if isinstance(val, Image): ret[key] = fslimage_to_qpdata(val, key)`. -/
def collectResult (ret : List (String × QpData A G)) (kv : String × FslOutput A G) :
    List (String × QpData A G) :=
  match kv.2 with
  | .image img => ret ++ [(kv.1, fslimage_to_qpdata img (some kv.1))]
  | .other => ret

/-- The result-collection loop of `_run_fsl` (`fslqp/process.py`,
lines 74-79): keep exactly the `Image` outputs, converting each with
`fslimage_to_qpdata(val, key)`. -/
def runFslResults (cmdResult : List (String × FslOutput A G)) :
    List (String × QpData A G) :=
  cmdResult.foldl collectResult []

/-- A Python exception caught by the `except Exception` clause of
`_run_fsl`. -/
inductive PyExc where
  | attributeError (msg : String)
  | exc (msg : String)
deriving DecidableEq

/-- Third component of `_run_fsl`'s returned triple: the collected
results on success, the caught exception on failure. -/
inductive RunFslRet (A G : Type) where
  | results (r : List (String × QpData A G))
  | raised (e : PyExc)
deriving DecidableEq

/-- Worker function `_run_fsl` (`fslqp/process.py`, lines 50-83).  The external effects
are parameters: `wrapperLookup` is the outcome of `getattr(fsl, cmd)`
(`none` models an `AttributeError`), and `runOutcome` is the outcome of
calling the wrapper on the converted arguments (an exception or an
output dictionary).  The `try`/`except Exception` wrapper turns any
exception into a `(worker_id, False, exc)` triple. -/
def run_fsl_body (wrapperLookup : Option Unit)
    (cmd_args : List (String × CmdArgVal A G))
    (runOutcome : List (String × FslArgVal A G) → Except PyExc (List (String × FslOutput A G))) :
    Except PyExc (List (String × QpData A G)) := do
  match wrapperLookup with
  | some _ => pure ()
  | none => Except.error (.attributeError "module fsl.wrappers has no such attribute")
  let converted := cmd_args.map (fun kv => (kv.1, convertArg kv.2))
  let cmdResult ← runOutcome converted
  pure (runFslResults cmdResult)

def run_fsl (worker_id : Nat) (wrapperLookup : Option Unit)
    (cmd_args : List (String × CmdArgVal A G))
    (runOutcome : List (String × FslArgVal A G) → Except PyExc (List (String × FslOutput A G))) :
    Nat × Bool × RunFslRet A G :=
  match run_fsl_body wrapperLookup cmd_args runOutcome with
  | .ok ret => (worker_id, true, .results ret)
  | .error e => (worker_id, false, .raised e)

/-- Status of a host-application `Process` (`quantiphyse.processes`),
compared against `Process.SUCCEEDED` in `FslProcess.finished`. -/
inductive Status where
  | succeeded
  | failed
  | cancelled
deriving DecidableEq

/-- The host application's `ImageVolumeManagement` as `FslProcess.finished`
touches it: named data sets, named ROIs, and the current selections.
`D` abstracts the `QpData` objects stored. -/
structure IVM (D : Type) where
  data : List (String × D)
  rois : List (String × D)
  currentData : Option String
  currentRoi : Option String
deriving DecidableEq

def IVM.add_data (ivm : IVM D) (d : D) (nm : String) : IVM D :=
  { ivm with data := ivm.data ++ [(nm, d)] }

def IVM.add_roi (ivm : IVM D) (d : D) (nm : String) : IVM D :=
  { ivm with rois := ivm.rois ++ [(nm, d)] }

def IVM.set_current_data (ivm : IVM D) (nm : String) : IVM D :=
  { ivm with currentData := some nm }

def IVM.set_current_roi (ivm : IVM D) (nm : String) : IVM D :=
  { ivm with currentRoi := some nm }

/-- One iteration of the result loop of `FslProcess.finished`: add the
result under its `_output_data` mapping (when present), then under its
`_output_rois` mapping (when present). -/
def finishedStep (output_data output_rois : List (String × String))
    (acc : IVM D) (kv : String × D) : IVM D :=
  let acc1 := match List.lookup kv.1 output_data with
    | some nm => acc.add_data kv.2 nm
    | none => acc
  match List.lookup kv.1 output_rois with
  | some nm => acc1.add_roi kv.2 nm
  | none => acc1

/-- The two trailing `if self._current_data:` / `if self._current_roi:`
blocks of `FslProcess.finished` (Python truthiness: set only when the
optional name is a non-empty string). -/
def setCurrents (current_data current_roi : Option String) (ivm1 : IVM D) : IVM D :=
  let ivm2 := match current_data with
    | some s => if s ≠ "" then ivm1.set_current_data s else ivm1
    | none => ivm1
  match current_roi with
  | some s => if s ≠ "" then ivm2.set_current_roi s else ivm2
  | none => ivm2

/-- Method `FslProcess.finished` (`fslqp/process.py`, lines 130-155): when the
process status is `SUCCEEDED`, walk the worker's result dictionary and
add each result whose key is mapped in `_output_data` (resp.
`_output_rois`) to the volume management under the mapped name, then set
the current data/ROI when those are truthy; otherwise do nothing. -/
def finished (status : Status) (worker_output : List (String × D))
    (output_data output_rois : List (String × String))
    (current_data current_roi : Option String) (ivm : IVM D) : IVM D :=
  if status = .succeeded then
    setCurrents current_data current_roi
      (worker_output.foldl (finishedStep output_data output_rois) ivm)
  else ivm

/-- The progress-tracking state of an `FslProcess` between calls to
`timeout`: the expected step markers (regular-expression sources, `none`
modelling a `None` entry) and the current step index. -/
structure ProcState where
  expectedSteps : List (Option String)
  currentStep : Nat
deriving DecidableEq

/-- One iteration of the `while not self.queue.empty()` loop of
`FslProcess.timeout` (`fslqp/process.py`, lines 163-172) on the line
taken from the queue.  `rmatch e line` models `re.match(e, line)`.
Returns the new state and the values emitted on `sig_progress`
(Python's float division modelled exactly, over `ℚ`). -/
def processLine (rmatch : String → String → Bool) (s : ProcState) (line : String) :
    ProcState × List ℚ :=
  if s.currentStep < s.expectedSteps.length then
    match s.expectedSteps[s.currentStep]? with
    | some (some expected) =>
      if rmatch expected line then
        let ns := s.currentStep + 1
        ({ s with currentStep := ns },
         [(ns : ℚ) / ((s.expectedSteps.length : ℚ) + 1)])
      else (s, [])
    | _ => (s, [])
  else (s, [])

/-- Method `FslProcess.timeout` (`fslqp/process.py`, lines 157-172): drain the
queued stdout lines in order, threading the state and concatenating the
emitted progress values. -/
def timeout (rmatch : String → String → Bool) :
    ProcState → List String → ProcState × List ℚ
  | s, [] => (s, [])
  | s, line :: rest =>
    let r := processLine rmatch s line
    let r2 := timeout rmatch r.1 rest
    (r2.1, r.2 ++ r2.2)

/-! ## Helper lemmas -/

theorem foldl_put (ls : List String) (q : LineQueue) :
    (ls.foldl LineQueue.put q).items = q.items ++ ls := by
  induction ls generalizing q with
  | nil => simp
  | cons l rest ih => simp [LineQueue.put, ih]

theorem optionsLoop_nodup (d : PyDict) (h : (d.map Prod.fst).Nodup) :
    optionsLoop d = some ([], optionFragments d) := by
  rw [optionsLoop, optionsLoopAux_nodup d "" h]
  simp

/-- The reference part `moco` appends to the command line: ` -refvol %i`
for an integer reference, ` -reffile ref_data` otherwise. -/
def mocoRefArg : MocoRef → String
  | .intRef n => " -refvol " ++ toString n
  | .arrRef _ => " -reffile ref_data"

/-- What `moco` adds to the volume management for the reference: nothing
for an integer reference, the array under `ref_data` otherwise. -/
def mocoRefIvm (ref : MocoRef) (refGrid : G) : List (IVMEntry G) :=
  match ref with
  | .intRef _ => []
  | .arrRef a => [⟨"ref_data", a, a.shape, refGrid⟩]

/-- The data names `moco` registers on the process for the reference. -/
def mocoRefData : MocoRef → List String
  | .intRef _ => []
  | .arrRef _ => ["ref_data"]

/-! ## Claims -/

/-- C3: every text chunk written to `FslOutputProgress.write` is split
into its lines (Python `splitlines` semantics) and each line is put onto
the queue in order, none dropped, merged or added; `flush` leaves the
queue unchanged. -/
theorem write_puts_each_line (q : LineQueue) (text : String) :
    (FslOutputProgress.write q text).items = q.items ++ pySplitlines text ∧
    FslOutputProgress.flush q = q :=
  ⟨foldl_put (pySplitlines text) q, rfl⟩

/-- C4: converting a `QpData` to an FSL `Image` and back yields the same
raw array, the same name, a grid shape equal to the first three
dimensions of the original shape, and the original grid affine. -/
theorem qpdata_fslimage_roundtrip (A G : Type) (qpd : QpData A G) :
    (fslimage_to_qpdata (qpdata_to_fslimage qpd) none).rawData = qpd.rawData ∧
    (fslimage_to_qpdata (qpdata_to_fslimage qpd) none).name = qpd.name ∧
    (fslimage_to_qpdata (qpdata_to_fslimage qpd) none).grid.shape = qpd.shape.take 3 ∧
    (fslimage_to_qpdata (qpdata_to_fslimage qpd) none).grid.affine = qpd.grid.affine :=
  ⟨rfl, rfl, rfl, rfl⟩

/-- C5: for every options dictionary passed to `FlirtRegMethod.reg_3d`
or `FlirtRegMethod.moco`, the constructed command line consists, for
each option in turn, of the fragment `-<key> <value> ` when the value is
truthy and `-<key> ` when it is falsy, followed by the fixed
input/output arguments (`-in reg -ref ref -out flirt_out` for `reg_3d`,
`-in moco_data -out mcflirt_out` plus the reference argument for
`moco`), and after construction the options dictionary is empty. -/
theorem cmdline_from_options (G : Type)
    (regData refData mocoData : NDArray) (regGrid refGrid mocoGrid mRefGrid : G)
    (ref : MocoRef) (options moptions : PyDict)
    (hreg : (options.map Prod.fst).Nodup)
    (hmoco : (moptions.map Prod.fst).Nodup)
    (hdim : mocoData.ndim = 4) :
    reg_3d regData regGrid refData refGrid options =
      some ⟨[⟨"reg", regData, regData.shape, regGrid⟩,
             ⟨"ref", refData, refData.shape, refGrid⟩],
            ["reg", "ref"],
            optionFragments options ++ "-in reg -ref ref -out flirt_out", []⟩ ∧
    moco mocoData mocoGrid ref mRefGrid moptions =
      .ok ⟨⟨"moco_data", mocoData, mocoData.shape.take 3, mocoGrid⟩ :: mocoRefIvm ref mRefGrid,
           "moco_data" :: mocoRefData ref,
           optionFragments moptions ++ "-in moco_data -out mcflirt_out" ++ mocoRefArg ref,
           []⟩ := by
  constructor
  · simp [reg_3d, optionsLoop_nodup options hreg]
  · rw [moco, if_neg (by simp [hdim])]
    simp only [optionsLoop_nodup moptions hmoco]
    cases ref <;> simp [mocoRefIvm, mocoRefData, mocoRefArg, ← String.append_assoc]

theorem cmdline_from_options_witness :
    reg_3d (G := Unit) ⟨[2, 2, 2]⟩ () ⟨[3, 3, 3]⟩ ()
        [("cost", .str "corratio"), ("gdt", .str "")] =
      some ⟨[⟨"reg", ⟨[2, 2, 2]⟩, [2, 2, 2], ()⟩, ⟨"ref", ⟨[3, 3, 3]⟩, [3, 3, 3], ()⟩],
            ["reg", "ref"],
            optionFragments [("cost", .str "corratio"), ("gdt", .str "")] ++
              "-in reg -ref ref -out flirt_out", []⟩ ∧
    moco (G := Unit) ⟨[2, 2, 2, 3]⟩ () (.intRef 1) () [("bins", .int 256)] =
      .ok ⟨[⟨"moco_data", ⟨[2, 2, 2, 3]⟩, [2, 2, 2], ()⟩],
           ["moco_data"],
           optionFragments [("bins", .int 256)] ++ "-in moco_data -out mcflirt_out" ++
             mocoRefArg (.intRef 1), []⟩ :=
  cmdline_from_options Unit ⟨[2, 2, 2]⟩ ⟨[3, 3, 3]⟩ ⟨[2, 2, 2, 3]⟩ () () () ()
    (.intRef 1) [("cost", .str "corratio"), ("gdt", .str "")] [("bins", .int 256)]
    (by decide) (by decide) (by decide)

/-- C7: in `FlirtRegMethod.moco`, an integer reference makes the command
line end with ` -refvol <n>` and adds no reference data set to the
volume management; a reference array is added under the name `ref_data`
and the command line uses ` -reffile ref_data` instead. -/
theorem moco_reference_handling (G : Type) (mocoData : NDArray)
    (mocoGrid refGrid : G) (options : PyDict)
    (hdim : mocoData.ndim = 4) (h : (options.map Prod.fst).Nodup) :
    (∀ n : Int, moco mocoData mocoGrid (.intRef n) refGrid options =
      .ok ⟨[⟨"moco_data", mocoData, mocoData.shape.take 3, mocoGrid⟩], ["moco_data"],
           optionFragments options ++ "-in moco_data -out mcflirt_out" ++ " -refvol " ++
             toString n, []⟩) ∧
    (∀ a : NDArray, moco mocoData mocoGrid (.arrRef a) refGrid options =
      .ok ⟨[⟨"moco_data", mocoData, mocoData.shape.take 3, mocoGrid⟩,
            ⟨"ref_data", a, a.shape, refGrid⟩], ["moco_data", "ref_data"],
           optionFragments options ++ "-in moco_data -out mcflirt_out" ++
             " -reffile ref_data", []⟩) := by
  constructor
  · intro n
    rw [moco, if_neg (by simp [hdim])]
    simp [optionsLoop_nodup options h]
  · intro a
    rw [moco, if_neg (by simp [hdim])]
    simp [optionsLoop_nodup options h]

theorem moco_reference_handling_witness :
    moco (G := Unit) ⟨[2, 2, 2, 3]⟩ () (.intRef 5) () [("bins", .int 256)] =
      .ok ⟨[⟨"moco_data", ⟨[2, 2, 2, 3]⟩, [2, 2, 2], ()⟩], ["moco_data"],
           optionFragments [("bins", .int 256)] ++ "-in moco_data -out mcflirt_out" ++
             " -refvol " ++ toString (5 : Int), []⟩ ∧
    moco (G := Unit) ⟨[2, 2, 2, 3]⟩ () (.arrRef ⟨[4, 4, 4]⟩) () [("bins", .int 256)] =
      .ok ⟨[⟨"moco_data", ⟨[2, 2, 2, 3]⟩, [2, 2, 2], ()⟩,
            ⟨"ref_data", ⟨[4, 4, 4]⟩, [4, 4, 4], ()⟩], ["moco_data", "ref_data"],
           optionFragments [("bins", .int 256)] ++ "-in moco_data -out mcflirt_out" ++
             " -reffile ref_data", []⟩ :=
  ⟨(moco_reference_handling Unit ⟨[2, 2, 2, 3]⟩ () () [("bins", .int 256)]
      (by decide) (by decide)).1 5,
   (moco_reference_handling Unit ⟨[2, 2, 2, 3]⟩ () () [("bins", .int 256)]
      (by decide) (by decide)).2 ⟨[4, 4, 4]⟩⟩

/-- C10: `FlirtRegMethod.moco` raises a `QpException` exactly when the
input data array is not 4-dimensional; the raise happens before any
command line is built or any data is added, and the options dictionary
is left untouched. -/
theorem moco_raises_iff_not_4d (G : Type) (mocoData : NDArray)
    (mocoGrid refGrid : G) (ref : MocoRef) (options : PyDict) :
    (mocoData.ndim ≠ 4 →
      moco mocoData mocoGrid ref refGrid options =
        .qpError "Cannot motion correct 3D data" options) ∧
    (∀ msg optsLeft,
      moco mocoData mocoGrid ref refGrid options = .qpError msg optsLeft →
      mocoData.ndim ≠ 4 ∧ msg = "Cannot motion correct 3D data" ∧ optsLeft = options) := by
  constructor
  · intro h
    rw [moco, if_pos h]
  · intro msg optsLeft heq
    by_cases h : mocoData.ndim = 4
    · exfalso
      rw [moco, if_neg (by simp [h])] at heq
      cases hol : optionsLoop options with
      | none => rw [hol] at heq; simp at heq
      | some p =>
        obtain ⟨optsL, cl⟩ := p
        rw [hol] at heq
        cases ref <;> simp at heq
    · rw [moco, if_pos h] at heq
      simp only [MocoOutcome.qpError.injEq] at heq
      exact ⟨h, heq.1.symm, heq.2.symm⟩

theorem moco_raises_iff_not_4d_witness :
    moco (G := Unit) ⟨[2, 3, 4]⟩ () (.intRef 0) () [("cost", .str "corratio")] =
      .qpError "Cannot motion correct 3D data" [("cost", .str "corratio")] ∧
    ((⟨[2, 3, 4]⟩ : NDArray).ndim ≠ 4 ∧
     "Cannot motion correct 3D data" = "Cannot motion correct 3D data" ∧
     [("cost", PyVal.str "corratio")] = [("cost", PyVal.str "corratio")]) :=
  ⟨(moco_raises_iff_not_4d Unit ⟨[2, 3, 4]⟩ () () (.intRef 0)
      [("cost", .str "corratio")]).1 (by decide),
   (moco_raises_iff_not_4d Unit ⟨[2, 3, 4]⟩ () () (.intRef 0)
      [("cost", .str "corratio")]).2 "Cannot motion correct 3D data"
      [("cost", .str "corratio")] (by decide)⟩

/-- C1: a stdout line consumed by `FslProcess.timeout` while the current
step index is below the number of expected steps and the current marker
is not `None`: a match advances the step index by one and emits exactly
the completion fraction (new index)/(number of expected steps + 1); a
non-matching line changes nothing and emits nothing.  Draining a
one-line queue is exactly one loop iteration. -/
theorem timeout_marker_step (rmatch : String → String → Bool)
    (s : ProcState) (line expected : String)
    (hlt : s.currentStep < s.expectedSteps.length)
    (hmark : s.expectedSteps[s.currentStep]? = some (some expected)) :
    (rmatch expected line = true →
      processLine rmatch s line =
        ({ s with currentStep := s.currentStep + 1 },
         [((s.currentStep + 1 : Nat) : ℚ) / ((s.expectedSteps.length : ℚ) + 1)])) ∧
    (rmatch expected line = false →
      processLine rmatch s line = (s, [])) ∧
    timeout rmatch s [line] = processLine rmatch s line := by
  refine ⟨fun hm => ?_, fun hm => ?_, ?_⟩
  · simp [processLine, hlt, hmark, hm]
  · simp [processLine, hlt, hmark, hm]
  · simp [timeout]

theorem timeout_marker_step_witness :
    (processLine (fun e l => e == l) ⟨[some "Tanaka Iteration"], 0⟩ "Tanaka Iteration" =
      (⟨[some "Tanaka Iteration"], 0 + 1⟩,
       [((0 + 1 : Nat) : ℚ) / ((([some "Tanaka Iteration"] : List (Option String)).length : ℚ) + 1)])) ∧
    (processLine (fun e l => e == l) ⟨[some "Tanaka Iteration"], 0⟩ "other" =
      (⟨[some "Tanaka Iteration"], 0⟩, [])) ∧
    timeout (fun e l => e == l) ⟨[some "Tanaka Iteration"], 0⟩ ["other"] =
      processLine (fun e l => e == l) ⟨[some "Tanaka Iteration"], 0⟩ "other" :=
  ⟨(timeout_marker_step (fun e l => e == l) ⟨[some "Tanaka Iteration"], 0⟩
      "Tanaka Iteration" "Tanaka Iteration" (by decide) (by decide)).1 (by decide),
   (timeout_marker_step (fun e l => e == l) ⟨[some "Tanaka Iteration"], 0⟩
      "other" "Tanaka Iteration" (by decide) (by decide)).2.1 (by decide),
   (timeout_marker_step (fun e l => e == l) ⟨[some "Tanaka Iteration"], 0⟩
      "other" "Tanaka Iteration" (by decide) (by decide)).2.2⟩

theorem frac_bounds (k n : ℕ) (h1 : 1 ≤ k) (h2 : k ≤ n) :
    0 < (k : ℚ) / ((n : ℚ) + 1) ∧ (k : ℚ) / ((n : ℚ) + 1) < 1 := by
  have hk : (0 : ℚ) < (k : ℚ) := by exact_mod_cast h1
  have hn : (k : ℚ) ≤ (n : ℚ) := by exact_mod_cast h2
  constructor
  · apply div_pos hk
    positivity
  · rw [div_lt_one (by positivity)]
    linarith

theorem processLine_inv (rmatch : String → String → Bool) (s : ProcState) (line : String) :
    (processLine rmatch s line).1.expectedSteps = s.expectedSteps ∧
    (s.currentStep ≤ s.expectedSteps.length →
      (processLine rmatch s line).1.currentStep ≤ s.expectedSteps.length) ∧
    ∀ q ∈ (processLine rmatch s line).2, ∃ k : ℕ, 1 ≤ k ∧ k ≤ s.expectedSteps.length ∧
      q = (k : ℚ) / ((s.expectedSteps.length : ℚ) + 1) := by
  by_cases hlt : s.currentStep < s.expectedSteps.length
  · rcases hm : s.expectedSteps[s.currentStep]? with _ | (_ | e)
    · simp [processLine, hlt, hm]
    · simp [processLine, hlt, hm]
    · by_cases hr : rmatch e line
      · refine ⟨by simp [processLine, hlt, hm, hr], fun _ => ?_, fun q hq => ?_⟩
        · simp only [processLine, hlt, if_true, hm, hr]
          simpa using hlt
        · simp only [processLine, hlt, if_true, hm, hr, if_pos] at hq
          simp only [List.mem_singleton] at hq
          exact ⟨s.currentStep + 1, by omega, by omega, by simpa using hq⟩
      · simp [processLine, hlt, hm, hr]
  · simp [processLine, hlt]

/-- C9: starting from any state whose step index does not exceed the
number of expected steps (as after `run`, which resets it to zero),
every sequence of lines drained by `FslProcess.timeout` leaves the step
index no greater than the number of expected steps `n`, keeps the
expected steps unchanged, and every emitted progress value equals
`k/(n+1)` for some `1 ≤ k ≤ n`, hence lies strictly between 0 and 1 and
never reaches 1. -/
theorem timeout_progress_bounds (rmatch : String → String → Bool)
    (s : ProcState) (lines : List String)
    (h : s.currentStep ≤ s.expectedSteps.length) :
    (timeout rmatch s lines).1.expectedSteps = s.expectedSteps ∧
    (timeout rmatch s lines).1.currentStep ≤ s.expectedSteps.length ∧
    ∀ q ∈ (timeout rmatch s lines).2, ∃ k : ℕ, 1 ≤ k ∧ k ≤ s.expectedSteps.length ∧
      q = (k : ℚ) / ((s.expectedSteps.length : ℚ) + 1) ∧ 0 < q ∧ q < 1 := by
  induction lines generalizing s with
  | nil =>
    refine ⟨rfl, h, ?_⟩
    simp [timeout]
  | cons line rest ih =>
    obtain ⟨he, hc, hq⟩ := processLine_inv rmatch s line
    have h1 : (processLine rmatch s line).1.currentStep ≤
        (processLine rmatch s line).1.expectedSteps.length := by
      rw [he]; exact hc h
    obtain ⟨ihe, ihc, ihq⟩ := ih (processLine rmatch s line).1 h1
    rw [he] at ihe ihc ihq
    refine ⟨?_, ?_, ?_⟩
    · simpa [timeout] using ihe
    · simpa [timeout] using ihc
    · intro q hmem
      simp only [timeout, List.mem_append] at hmem
      rcases hmem with hmem | hmem
      · obtain ⟨k, hk1, hk2, hkq⟩ := hq q hmem
        obtain ⟨hpos, hlt1⟩ := frac_bounds k s.expectedSteps.length hk1 hk2
        exact ⟨k, hk1, hk2, hkq, by rw [hkq]; exact hpos, by rw [hkq]; exact hlt1⟩
      · exact ihq q hmem

theorem timeout_progress_bounds_witness :
    (timeout (fun e l => e == l) ⟨[some "a", some "b"], 0⟩ ["a", "b", "c"]).1.expectedSteps =
      [some "a", some "b"] ∧
    (timeout (fun e l => e == l) ⟨[some "a", some "b"], 0⟩ ["a", "b", "c"]).1.currentStep ≤
      ([some "a", some "b"] : List (Option String)).length ∧
    ∀ q ∈ (timeout (fun e l => e == l) ⟨[some "a", some "b"], 0⟩ ["a", "b", "c"]).2,
      ∃ k : ℕ, 1 ≤ k ∧ k ≤ ([some "a", some "b"] : List (Option String)).length ∧
        q = (k : ℚ) / ((([some "a", some "b"] : List (Option String)).length : ℚ) + 1) ∧
        0 < q ∧ q < 1 :=
  timeout_progress_bounds (fun e l => e == l) ⟨[some "a", some "b"], 0⟩ ["a", "b", "c"]
    (by decide)

theorem setCurrents_preserves (cd cr : Option String) (v : IVM D) :
    (setCurrents cd cr v).data = v.data ∧ (setCurrents cd cr v).rois = v.rois := by
  unfold setCurrents
  cases cd <;> cases cr <;> simp [IVM.set_current_data, IVM.set_current_roi] <;>
    split_ifs <;> simp

theorem finishedStep_fields (od orois : List (String × String)) (acc : IVM D)
    (kv : String × D) :
    (finishedStep od orois acc kv).data =
      acc.data ++ ((List.lookup kv.1 od).map (fun nm => (nm, kv.2))).toList ∧
    (finishedStep od orois acc kv).rois =
      acc.rois ++ ((List.lookup kv.1 orois).map (fun nm => (nm, kv.2))).toList := by
  unfold finishedStep
  cases List.lookup kv.1 od <;> cases List.lookup kv.1 orois <;>
    simp [IVM.add_data, IVM.add_roi]

theorem finished_fold (wo : List (String × D)) (od orois : List (String × String))
    (acc : IVM D) :
    (wo.foldl (finishedStep od orois) acc).data =
      acc.data ++ wo.filterMap (fun kv => (List.lookup kv.1 od).map (fun nm => (nm, kv.2))) ∧
    (wo.foldl (finishedStep od orois) acc).rois =
      acc.rois ++ wo.filterMap (fun kv => (List.lookup kv.1 orois).map (fun nm => (nm, kv.2))) := by
  induction wo generalizing acc with
  | nil => simp
  | cons kv rest ih =>
    obtain ⟨hd, hr⟩ := finishedStep_fields od orois acc kv
    obtain ⟨ihd, ihr⟩ := ih (finishedStep od orois acc kv)
    simp only [List.foldl_cons, List.filterMap_cons]
    constructor
    · rw [ihd, hd]
      cases List.lookup kv.1 od <;> simp
    · rw [ihr, hr]
      cases List.lookup kv.1 orois <;> simp

/-- C2: `FslProcess.finished` forwards worker results to the data
manager only when the status is `SUCCEEDED`: each result key mapped in
the output-data dictionary is added as data under the mapped name, each
key mapped in the output-roi dictionary is added as an ROI under the
mapped name; with any other status the data manager is unchanged. -/
theorem finished_forwards_results (D : Type) (status : Status)
    (wo : List (String × D)) (od orois : List (String × String))
    (cd cr : Option String) (ivm : IVM D) :
    (status ≠ .succeeded → finished status wo od orois cd cr ivm = ivm) ∧
    (status = .succeeded →
      (finished status wo od orois cd cr ivm).data =
        ivm.data ++ wo.filterMap (fun kv => (List.lookup kv.1 od).map (fun nm => (nm, kv.2))) ∧
      (finished status wo od orois cd cr ivm).rois =
        ivm.rois ++ wo.filterMap (fun kv => (List.lookup kv.1 orois).map (fun nm => (nm, kv.2)))) := by
  constructor
  · intro h
    rw [finished, if_neg h]
  · intro h
    rw [finished, if_pos h]
    obtain ⟨hpd, hpr⟩ := setCurrents_preserves cd cr (wo.foldl (finishedStep od orois) ivm)
    obtain ⟨hfd, hfr⟩ := finished_fold wo od orois ivm
    exact ⟨by rw [hpd, hfd], by rw [hpr, hfr]⟩

theorem finished_forwards_results_witness :
    finished Status.failed [("k", (5 : ℕ))] [("k", "out")] [("k", "roi")] none none
      ⟨[("e", 1)], [], none, none⟩ = ⟨[("e", 1)], [], none, none⟩ ∧
    ((finished Status.succeeded [("k", (5 : ℕ))] [("k", "out")] [("k", "roi")] none none
        ⟨[("e", 1)], [], none, none⟩).data =
      [("e", 1)] ++ [("k", (5 : ℕ))].filterMap
        (fun kv => (List.lookup kv.1 [("k", "out")]).map (fun nm => (nm, kv.2))) ∧
     (finished Status.succeeded [("k", (5 : ℕ))] [("k", "out")] [("k", "roi")] none none
        ⟨[("e", 1)], [], none, none⟩).rois =
      [] ++ [("k", (5 : ℕ))].filterMap
        (fun kv => (List.lookup kv.1 [("k", "roi")]).map (fun nm => (nm, kv.2)))) :=
  ⟨(finished_forwards_results ℕ Status.failed [("k", 5)] [("k", "out")] [("k", "roi")]
      none none ⟨[("e", 1)], [], none, none⟩).1 (by decide),
   (finished_forwards_results ℕ Status.succeeded [("k", 5)] [("k", "out")] [("k", "roi")]
      none none ⟨[("e", 1)], [], none, none⟩).2 rfl⟩

theorem runFslResults_fold (cmdResult : List (String × FslOutput A G))
    (acc : List (String × QpData A G)) :
    cmdResult.foldl collectResult acc =
      acc ++ cmdResult.filterMap (fun kv =>
        match kv.2 with
        | .image img => some (kv.1, fslimage_to_qpdata img (some kv.1))
        | .other => none) := by
  induction cmdResult generalizing acc with
  | nil => simp
  | cons kv rest ih =>
    obtain ⟨k, v⟩ := kv
    cases v <;> simp [collectResult, List.filterMap_cons, ih]

/-- C6 counterexample: for the output dictionary `{"": img}` where the
image's own name is `"foo"`, `_run_fsl` keeps the image but stores it
with name `"foo"`, not with its (empty) output key, because
`fslimage_to_qpdata` treats an empty name as absent. -/
theorem runFslResults_empty_key :
    (runFslResults (A := Unit) (G := Unit) [("", .image ⟨(), [1], "foo", ()⟩)]).map
      (fun kv => (kv.1, kv.2.name)) = [("", "foo")] ∧ "foo" ≠ "" := by
  constructor
  · rfl
  · decide

/-- C6 (amended): on success `_run_fsl` returns exactly the `Image`
outputs of the wrapper call, each converted to `QpData` and stored under
its output key; the converted data's name is the key whenever the key is
non-empty (an empty key falls back to the image's own name); outputs of
any other type are omitted. -/
theorem runFslResults_spec (A G : Type)
    (cmdResult : List (String × FslOutput A G)) :
    runFslResults cmdResult = cmdResult.filterMap (fun kv =>
      match kv.2 with
      | .image img => some (kv.1, fslimage_to_qpdata img (some kv.1))
      | .other => none) ∧
    ∀ (img : Image A G) (k : String), k ≠ "" →
      (fslimage_to_qpdata img (some k)).name = k := by
  constructor
  · simpa using runFslResults_fold cmdResult []
  · intro img k hk
    simp [fslimage_to_qpdata, hk]

theorem runFslResults_spec_witness :
    runFslResults (A := Unit) (G := Unit)
        [("out", .image ⟨(), [2], "img", ()⟩), ("log", .other)] =
      ([("out", FslOutput.image ⟨(), [2], "img", ()⟩), ("log", FslOutput.other)] :
          List (String × FslOutput Unit Unit)).filterMap (fun kv =>
        match kv.2 with
        | .image img => some (kv.1, fslimage_to_qpdata img (some kv.1))
        | .other => none) ∧
    (fslimage_to_qpdata (A := Unit) (G := Unit) ⟨(), [2], "img", ()⟩ (some "out")).name =
      "out" :=
  ⟨(runFslResults_spec Unit Unit
      [("out", .image ⟨(), [2], "img", ()⟩), ("log", .other)]).1,
   (runFslResults_spec Unit Unit
      [("out", .image ⟨(), [2], "img", ()⟩), ("log", .other)]).2
      ⟨(), [2], "img", ()⟩ "out" (by decide)⟩

/-- C8: `_run_fsl` never propagates an exception: whatever the outcome
of the wrapper lookup and of the command execution, it returns either
`(worker_id, True, results)` or `(worker_id, False, exception)`, so the
second component of the triple always indicates success or failure. -/
theorem run_fsl_never_raises (A G : Type) (worker_id : Nat)
    (wrapperLookup : Option Unit) (cmd_args : List (String × CmdArgVal A G))
    (runOutcome : List (String × FslArgVal A G) →
      Except PyExc (List (String × FslOutput A G))) :
    (∃ ret, run_fsl worker_id wrapperLookup cmd_args runOutcome =
      (worker_id, true, .results ret)) ∨
    (∃ e, run_fsl worker_id wrapperLookup cmd_args runOutcome =
      (worker_id, false, .raised e)) := by
  cases hb : run_fsl_body wrapperLookup cmd_args runOutcome with
  | ok ret => exact Or.inl ⟨ret, by rw [run_fsl, hb]⟩
  | error e => exact Or.inr ⟨e, by rw [run_fsl, hb]⟩

end FslQP
